import Mathlib

/-!
Verification of the render/v1 plugin implementations of this repository
against their specification.

The Go sources are shallowly embedded:

* `Gotpl` models `plugins/gotemplate-render/main.go`.  The plugin drives
  Go's `text/template` engine; the engine is modeled at the granularity the
  plugin observes: a source file's bytes are modeled at parse granularity
  (`TmplSrc`: either a parsed template file or a parse failure), the shared
  template namespace is an ordered association list where a later
  registration overrides an earlier one (the replace-on-redefine behavior
  of `Template.New(name).Parse`), and execution is a fuel-indexed
  interpreter whose fuel models the engine's maximum template invocation
  depth.
* `SfMod` models `plugins/sourcefiles-modifier/main.go`.
* `Echo` models the echo-render plugin (an unnamed source file of the
  repository); its unchecked slice expression `sf.Name[:len(sf.Name)-5]`
  is modeled as a partial operation whose out-of-bounds case is an
  explicit `trap` result, matching the runtime panic / Wasm trap of Go.

JSON envelope decoding (`json.Unmarshal`) is modeled by passing the decode
result (`Except String input`) to the entry point: a malformed input byte
sequence is exactly one that decodes to `.error e`.  Go maps are modeled as
association lists with unique keys maintained by `mapInsert`.
-/

/-- Go map assignment `m[k] = v`: replace the binding of `k` if present,
otherwise append a new binding. -/
def mapInsert (m : List (String × String)) (k v : String) : List (String × String) :=
  match m with
  | [] => [(k, v)]
  | (k2, v2) :: rest => if k2 = k then (k, v) :: rest else (k2, v2) :: mapInsert rest k v

/-- Go map read `m[k]`: the binding of the first matching key (keys are
unique for maps built by `mapInsert`). -/
def mapLookup (m : List (String × String)) (k : String) : Option String :=
  match m with
  | [] => none
  | (k2, v) :: rest => if k2 = k then some v else mapLookup rest k

/-- Character-list implementation of `strings.HasPrefix` /
`String.startsWith` (equivalent for well-formed UTF-8, and
kernel-computable). -/
def strStartsWith (s pfx : String) : Bool :=
  pfx.data.isPrefixOf s.data

/-- Character-list implementation of `strings.HasSuffix` /
`String.endsWith`. -/
def strEndsWith (s sfx : String) : Bool :=
  sfx.data.isSuffixOf s.data

/-- Drop the last `n` characters of a string. -/
def strDropRight (s : String) (n : Nat) : String :=
  String.mk (s.data.take (s.data.length - n))

/-- Go `strings.TrimSpace`: strip leading and trailing whitespace. -/
def goTrimSpace (s : String) : String :=
  String.mk (((s.data.dropWhile Char.isWhitespace).reverse.dropWhile
    Char.isWhitespace).reverse)

/-- Go `strings.TrimSuffix` (used at sourcefiles-modifier main.go:88):
drop the suffix when present, otherwise return the string unchanged. -/
def goTrimSuffix (s sfx : String) : String :=
  if strEndsWith s sfx then strDropRight s sfx.data.length else s

/-- Go `path.Base`: last element of a slash-separated path, with trailing
slashes removed; `""` gives `"."`, an all-slash path gives `"/"`. -/
def pathBase (p : String) : String :=
  if p = "" then "."
  else
    let cs := (p.toList.reverse.dropWhile (fun c => c = '/')).reverse
    if cs = [] then "/"
    else String.mk (cs.reverse.takeWhile (fun c => c ≠ '/')).reverse

namespace Gotpl

/-- Structural values flowing through template data
(`interface\x7b\x7d` values produced by `encoding/json` decoding:
null, bool, number, string, array, object).  Numbers are modeled as
integers. -/
inductive Value where
  | vnull : Value
  | vbool (b : Bool) : Value
  | vint (n : Int) : Value
  | vstr (s : String) : Value
  | vlist (l : List Value) : Value
  | vdict (d : List (String × Value)) : Value

/-- The template-body fragment of Go `text/template` exercised by the
plugin: literal text, a `template` invocation of a named fragment,
juxtaposition, and a call of the `fail` function from the plugin's
function map (main.go:347-349), which aborts execution with an error. -/
inductive Body where
  | lit (s : String) : Body
  | templ (name : String) : Body
  | seq (a b : Body) : Body
  | fail (msg : String) : Body
deriving DecidableEq

/-- A successfully parsed template file: the named fragments its
`define` blocks register, and its top-level body (registered under the
file's own name by `Template.New(name).Parse`). -/
structure TmplFile where
  defines : List (String × Body)
  body : Body
deriving DecidableEq

/-- A source file's bytes at parse granularity: either text that
`text/template` parses to `t`, or text whose parse fails with error
message `e`.  `Parse` is atomic: a failed parse registers nothing. -/
inductive TmplSrc where
  | ok (t : TmplFile) : TmplSrc
  | bad (e : String) : TmplSrc
deriving DecidableEq

/-- Struct `SourceFile` (main.go:48-51): a named file in the chart. -/
structure SourceFile where
  name : String
  data : TmplSrc
deriving DecidableEq

/-- Struct `ReleaseInfo` (main.go:21-28). -/
structure ReleaseInfo where
  name : String
  namespaceName : String
  revision : Int
  isInstall : Bool
  isUpgrade : Bool
  service : String

/-- Struct `ChartInfo` (main.go:31-38). -/
structure ChartInfo where
  name : String
  version : String
  appVersion : String
  description : String
  type : String
  isRoot : Bool

/-- Struct `CapabilitiesInfo` (main.go:41-45). -/
structure CapabilitiesInfo where
  kubeVersion : List (String × Value)
  apiVersions : List String
  helmVersion : String

/-- Struct `InputMessageRenderV1` (main.go:54-62).  `files` (static assets,
never parsed as templates) are kept as raw name/content pairs. -/
structure InputMessageRenderV1 where
  release : ReleaseInfo
  values : List (String × Value)
  chart : ChartInfo
  subcharts : List (String × Value)
  files : List (String × String)
  capabilities : CapabilitiesInfo
  sourceFiles : List SourceFile

/-- Struct `OutputMessageRenderV1` (main.go:65-69).  `modifiedSourceFiles` is
`Option`-valued: `none` models the Go nil slice, which `omitempty`
leaves out of the serialized message. -/
structure OutputMessageRenderV1 where
  renderedFiles : List (String × String)
  modifiedSourceFiles : Option (List SourceFile)
  errors : List String

/-- Whether the serialized output message carries a
`modifiedSourceFiles` field: `omitempty` drops both a nil and an empty
slice (main.go:67). -/
def emitsModifiedSourceFiles (o : OutputMessageRenderV1) : Bool :=
  match o.modifiedSourceFiles with
  | some (_ :: _) => true
  | _ => false

/-- Lookup in the shared template namespace.  The namespace is the list
of registrations in registration order, and a later registration of the
same name overrides an earlier one (`text/template` replaces an existing
template on redefinition), so lookup returns the last matching entry. -/
def lookupTmpl (ns : List (String × Body)) (x : String) : Option Body :=
  match ns with
  | [] => none
  | (n, b) :: rest =>
    match lookupTmpl rest x with
    | some r => some r
    | none => if n = x then some b else none

/-- Registrations contributed by one file in pass 1 (main.go:176-185):
a file whose base name starts with an underscore is parsed into the
master template; a successful parse registers the file's top-level body
under the file name and each of its `define` blocks under its fragment
name; a failed parse registers nothing.  Other files register nothing. -/
def pass1Regs (f : SourceFile) : List (String × Body) :=
  if strStartsWith (pathBase f.name) "_" then
    match f.data with
    | .ok t => (f.name, t.body) :: t.defines
    | .bad _ => []
  else []

/-- Errors contributed by one file in pass 1 (main.go:180-183). -/
def pass1Errs (f : SourceFile) : List String :=
  if strStartsWith (pathBase f.name) "_" then
    match f.data with
    | .ok _ => []
    | .bad e => ["parse error in " ++ f.name ++ ": " ++ e]
  else []

/-- The shared namespace after pass 1: registrations of all files in
input sequence order. -/
def pass1Ns : List SourceFile → List (String × Body)
  | [] => []
  | f :: rest => pass1Regs f ++ pass1Ns rest

/-- Errors accumulated by pass 1, in input sequence order. -/
def pass1ErrList : List SourceFile → List String
  | [] => []
  | f :: rest => pass1Errs f ++ pass1ErrList rest

/-- The `text/template` execution depth limit (`maxExecDepth`), the
fuel bound of the execution model. -/
def maxExecDepth : Nat := 100000

/-- Fuel-indexed execution of a template body against namespace `ns`:
literal text renders to itself, `templ x` renders the last-registered
body of `x` (an unknown name is an execution error, as in
`text/template`), juxtaposition concatenates, and `fail` aborts with its
message.  Exhausted fuel models exceeding the engine's maximum template
depth. -/
def execBody (ns : List (String × Body)) : Nat → Body → Except String String
  | 0, _ => .error "exceeded maximum template depth"
  | _ + 1, .lit s => .ok s
  | fuel + 1, .seq a b =>
    match execBody ns fuel a with
    | .error e => .error e
    | .ok x =>
      match execBody ns fuel b with
      | .error e => .error e
      | .ok y => .ok (x ++ y)
  | _ + 1, .fail m => .error m
  | fuel + 1, .templ x =>
    match lookupTmpl ns x with
    | none => .error ("no such template " ++ x)
    | some b => execBody ns fuel b

/-- Whether a file name has one of the recognized template extensions
(main.go:197-202). -/
def hasTemplateExt (name : String) : Bool :=
  strEndsWith name ".yaml" || strEndsWith name ".yml" ||
    strEndsWith name ".tpl" || strEndsWith name ".txt"

/-- One iteration of the pass 2 loop (main.go:188-251) for a single
file: the optional rendered entry it adds to `renderedFiles` and the
errors it appends.  A file whose base name starts with an underscore is
skipped (already handled by pass 1), as is a file without a recognized
extension.  A parse failure or an execution failure records one error
and adds no entry (the `Clone` of the master template at main.go:221 is
modeled as the shared namespace itself and cannot fail).  Output that is
entirely whitespace after trimming adds no entry (main.go:246-248). -/
def pass2File (ns : List (String × Body)) (f : SourceFile) :
    Option String × List String :=
  if strStartsWith (pathBase f.name) "_" then (none, [])
  else if hasTemplateExt f.name then
    match f.data with
    | .bad e => (none, ["parse error in " ++ f.name ++ ": " ++ e])
    | .ok t =>
      match execBody (ns ++ (f.name, t.body) :: t.defines) maxExecDepth t.body with
      | .error e => (none, ["render error in " ++ f.name ++ ": " ++ e])
      | .ok rendered =>
        if goTrimSpace rendered = "" then (none, [])
        else (some rendered, [])
  else (none, [])

/-- The `renderedFiles` map built by the pass 2 loop, starting from
accumulator `rf`: each file's optional entry is inserted under the
file's name, in input sequence order. -/
def pass2Rf (ns : List (String × Body)) : List SourceFile → List (String × String) → List (String × String)
  | [], rf => rf
  | f :: rest, rf =>
    pass2Rf ns rest
      (match (pass2File ns f).1 with
       | some r => mapInsert rf f.name r
       | none => rf)

/-- Errors accumulated by the pass 2 loop, in input sequence order. -/
def pass2ErrList (ns : List (String × Body)) : List SourceFile → List String
  | [] => []
  | f :: rest => (pass2File ns f).2 ++ pass2ErrList ns rest

/-- Function `outputError` (main.go:432-441): emit a message with an empty
`renderedFiles` map, no `modifiedSourceFiles`, exactly the one error,
and return status 1. -/
def outputError (msg : String) : Nat × OutputMessageRenderV1 :=
  (1, { renderedFiles := [], modifiedSourceFiles := none, errors := [msg] })

/-- Function `HelmPluginMain` (main.go:146-262).  The argument is the result of
`json.Unmarshal` on the input bytes: `.error e` models a malformed
envelope.  On success the two passes run over the source files in
sequence order, and the invocation returns status 0 with the
accumulated rendered files and errors; `output.ModifiedSourceFiles` is
never assigned.  (The final `json.Marshal` of the output cannot fail on
values of the modeled output type; spec §4.1 treats that branch as an
internal defect.) -/
def helmPluginMain (decoded : Except String InputMessageRenderV1) :
    Nat × OutputMessageRenderV1 :=
  match decoded with
  | .error e => outputError ("failed to parse input: " ++ e)
  | .ok input =>
    let ns := pass1Ns input.sourceFiles
    (0, { renderedFiles := pass2Rf ns input.sourceFiles [],
          modifiedSourceFiles := none,
          errors := pass1ErrList input.sourceFiles ++ pass2ErrList ns input.sourceFiles })

/-- The `default` function of the function map (main.go:284-289):
`default def val` is `def` when `val` is nil or the empty string, and
`val` otherwise.  The Go comparison `val == ""` is true only for a
string value equal to `""`; in particular a numeric zero is not
empty. -/
def defaultFn (d v : Value) : Value :=
  match v with
  | .vnull => d
  | .vstr s => if s = "" then d else .vstr s
  | _ => v

/-- The `include` function of the function map (main.go:352-354): a
placeholder that fails on every call. -/
def includeFn (_ : String) (_ : Value) : Except String String :=
  .error "include not fully implemented in plugin"

/-- The `tpl` function of the function map (main.go:357-359): a
placeholder that fails on every call. -/
def tplFn (_ : String) (_ : Value) : Except String String :=
  .error "tpl not fully implemented in plugin"

/-- One lowercase hexadecimal digit. -/
def hexDigit (n : Nat) : Char :=
  if n < 10 then Char.ofNat (48 + n) else Char.ofNat (87 + n)

/-- The `encoding/json` string escaping of one character (with the default
HTML escaping of the package-level `Marshal` functions). -/
def jsonEscapeChar (c : Char) : String :=
  if c = '"' then "\\\""
  else if c = '\\' then "\\\\"
  else if c = '\n' then "\\n"
  else if c = '\r' then "\\r"
  else if c = '\t' then "\\t"
  else if c = '<' then "\\u003c"
  else if c = '>' then "\\u003e"
  else if c = '&' then "\\u0026"
  else if c.toNat = 8232 then "\\u2028"
  else if c.toNat = 8233 then "\\u2029"
  else if c.toNat < 32 then
    "\\u00" ++ String.singleton (hexDigit (c.toNat / 16)) ++
      String.singleton (hexDigit (c.toNat % 16))
  else String.singleton c

/-- The `encoding/json` escaping of a whole string. -/
def jsonEscape (s : String) : String :=
  String.join (s.toList.map jsonEscapeChar)

/-- Insert a rendered key/value pair into a key-sorted list
(`encoding/json` serializes map keys in sorted order). -/
def insertPair (p : String × String) : List (String × String) → List (String × String)
  | [] => [p]
  | q :: rest => if p.1 ≤ q.1 then p :: q :: rest else q :: insertPair p rest

/-- Sort rendered key/value pairs by key. -/
def sortPairs : List (String × String) → List (String × String)
  | [] => []
  | p :: rest => insertPair p (sortPairs rest)

/-- Exactly `n` levels of two-space indentation, the indent unit passed to
`json.MarshalIndent(v, "", "  ")`. -/
def indentStr (n : Nat) : String :=
  String.join (List.replicate n "  ")

mutual

/-- Model of `json.MarshalIndent(v, "", "  ")` on a structural value: the
indented JSON serialization at nesting level `lvl` (this marshal cannot
fail on values of `Value`, so the error branches of main.go:364-368 and
main.go:382-386 are unreachable). -/
def jsonIndent : Nat → Value → String
  | _, .vnull => "null"
  | _, .vbool b => if b then "true" else "false"
  | _, .vint n => toString n
  | _, .vstr s => "\"" ++ jsonEscape s ++ "\""
  | _, .vlist [] => "[]"
  | lvl, .vlist (v :: vs) =>
    "[\n" ++ String.intercalate ",\n" (jsonIndentList (lvl + 1) (v :: vs)) ++
      "\n" ++ indentStr lvl ++ "]"
  | _, .vdict [] => "\x7b\x7d"
  | lvl, .vdict (p :: ps) =>
    "\x7b\n" ++
      String.intercalate ",\n"
        ((sortPairs (jsonIndentDict (lvl + 1) (p :: ps))).map
          (fun kv => indentStr (lvl + 1) ++ "\"" ++ jsonEscape kv.1 ++ "\": " ++ kv.2)) ++
      "\n" ++ indentStr lvl ++ "\x7d"

/-- Serialize each list element at level `lvl`, with its line
indentation. -/
def jsonIndentList : Nat → List Value → List String
  | _, [] => []
  | lvl, v :: vs => (indentStr lvl ++ jsonIndent lvl v) :: jsonIndentList lvl vs

/-- Serialize each object member's value at level `lvl`, keeping the
key for sorting. -/
def jsonIndentDict : Nat → List (String × Value) → List (String × String)
  | _, [] => []
  | lvl, (k, v) :: ps => (k, jsonIndent lvl v) :: jsonIndentDict lvl ps

end

/-- The `toYaml` function of the function map (main.go:362-369): it
returns `json.MarshalIndent(v, "", "  ")`, not a YAML serialization. -/
def toYamlFn (v : Value) : String :=
  jsonIndent 0 v

/-- The `toPrettyJson` function of the function map (main.go:381-387). -/
def toPrettyJsonFn (v : Value) : String :=
  jsonIndent 0 v

end Gotpl

namespace SfMod

/-- Struct `SourceFile` (sourcefiles-modifier main.go:20-23); the byte content
is kept opaque as a string. -/
structure SourceFile where
  name : String
  data : String
deriving DecidableEq

/-- Struct `InputMessageRenderV1` (sourcefiles-modifier main.go:26-34); fields
other than `sourceFiles` are never read by this plugin and are kept as
opaque structural values. -/
structure InputMessageRenderV1 where
  release : List (String × Gotpl.Value)
  values : List (String × Gotpl.Value)
  chart : List (String × Gotpl.Value)
  subcharts : List (String × Gotpl.Value)
  files : List SourceFile
  capabilities : List (String × Gotpl.Value)
  sourceFiles : List SourceFile

/-- Struct `OutputMessageRenderV1` (sourcefiles-modifier main.go:37-41). -/
structure OutputMessageRenderV1 where
  renderedFiles : List (String × String)
  modifiedSourceFiles : Option (List SourceFile)
  errors : List String

/-- The per-index switch of the processing loop (sourcefiles-modifier
main.go:67-101), returning the files appended to `ModifiedSourceFiles`
and the recorded actions, in input order: index 0 is removed by
omission, index 1 gets its content prefixed in place, index 2 has its
`.test` extension renamed to `.renamed` with its bytes preserved, and
every later file passes through unchanged. -/
def processFiles : Nat → List SourceFile → List SourceFile × List String
  | _, [] => ([], [])
  | i, f :: rest =>
    let (ms, acts) := processFiles (i + 1) rest
    match i with
    | 0 => (ms, ("REMOVED: " ++ f.name) :: acts)
    | 1 =>
      (⟨f.name, "[MODIFIED BY PLUGIN 1]\n" ++ f.data⟩ :: ms,
        ("MODIFIED: " ++ f.name) :: acts)
    | 2 =>
      let newName := goTrimSuffix f.name ".test" ++ ".renamed"
      (⟨newName, f.data⟩ :: ms,
        ("RENAMED: " ++ f.name ++ " -> " ++ newName) :: acts)
    | _ => (f :: ms, ("PASSED: " ++ f.name) :: acts)

/-- The content of the synthetic file appended for the next plugin
(sourcefiles-modifier main.go:104-109). -/
def newFileContent : String :=
  "# This file was added by sourcefiles-modifier plugin\nkey: added-by-plugin-1"

/-- Function `formatActions` (sourcefiles-modifier main.go:140-148). -/
def formatActions (actions : List String) : String :=
  String.join (actions.map (fun a => "    - " ++ a ++ "\n"))

/-- The summary manifest (sourcefiles-modifier main.go:114-125). -/
def summaryContent (actions : List String) (received output : Nat) : String :=
  "# SourceFiles Modifier Plugin Summary\n" ++
    "# This manifest documents the modifications made to source files\n" ++
    "apiVersion: v1\nkind: ConfigMap\nmetadata:\n" ++
    "  name: sourcefiles-modifier-summary\ndata:\n  actions: |\n" ++
    formatActions actions ++
    "\n  filesReceived: \"" ++ toString received ++ "\"\n" ++
    "  filesOutput: \"" ++ toString output ++ "\"\n"

/-- Function `outputError` (sourcefiles-modifier main.go:150-159). -/
def outputError (msg : String) : Nat × OutputMessageRenderV1 :=
  (1, { renderedFiles := [], modifiedSourceFiles := none, errors := [msg] })

/-- Function `HelmPluginMain` (sourcefiles-modifier main.go:44-138).  The
argument models the `json.Unmarshal` result.  On success the loop
processes the source files in order, the synthetic file is appended at
the end, the summary manifest is the only rendered file, and the status
is 0; `ModifiedSourceFiles` starts as an explicit empty slice, so it is
always present as a list. -/
def helmPluginMain (decoded : Except String InputMessageRenderV1) :
    Nat × OutputMessageRenderV1 :=
  match decoded with
  | .error e => outputError ("failed to parse input: " ++ e)
  | .ok input =>
    let (ms, acts) := processFiles 0 input.sourceFiles
    let ms2 := ms ++ [⟨"templates/file4.test", newFileContent⟩]
    let acts2 := acts ++ ["ADDED: templates/file4.test"]
    (0, { renderedFiles :=
            [("sourcefiles-modifier-summary.yaml",
              summaryContent acts2 input.sourceFiles.length ms2.length)],
          modifiedSourceFiles := some ms2,
          errors := [] })

end SfMod

namespace Echo

/-- Struct `SourceFile` of the echo-render plugin. -/
structure SourceFile where
  name : String
  data : String
deriving DecidableEq

/-- Struct `InputMessage` of the echo-render plugin: `release` is a decoded
JSON object; only its `"name"` entry is read. -/
structure InputMessage where
  release : List (String × Gotpl.Value)
  values : List (String × Gotpl.Value)
  chart : List (String × Gotpl.Value)
  sourceFiles : List SourceFile

/-- Struct `OutputMessage` of the echo-render plugin. -/
structure OutputMessage where
  renderedFiles : List (String × String)
  errors : List String
deriving DecidableEq

/-- The input boundary of the plugin: empty input bytes, bytes that
fail `json.Unmarshal`, or a decoded message. -/
inductive EchoInput where
  | empty : EchoInput
  | malformed (e : String) : EchoInput
  | ok (m : InputMessage) : EchoInput

/-- Result of one invocation: a returned status with an output message,
or a runtime trap (a Go panic aborts the Wasm invocation and no output
message is produced). -/
inductive EchoResult where
  | ret (status : Nat) (out : OutputMessage) : EchoResult
  | trap : EchoResult
deriving DecidableEq

/-- First-match lookup in a decoded JSON object. -/
def objLookup (m : List (String × Gotpl.Value)) (k : String) : Option Gotpl.Value :=
  match m with
  | [] => none
  | (k2, v) :: rest => if k2 = k then some v else objLookup rest k

/-- The output-name computation `sf.Name[:len(sf.Name)-5] + ".yaml"`:
Go slicing is in bytes, and a byte length below 5 makes the upper bound
negative, which panics at runtime; that case is `none`. -/
def outName (name : String) : Option String :=
  if 5 ≤ name.utf8ByteSize then
    some (name.extract 0 ⟨name.utf8ByteSize - 5⟩ ++ ".yaml")
  else none

/-- The rendering loop over the source files: each file's content is
echoed under its computed output name; a file whose name is too short
for the slice expression aborts the whole loop with a trap. -/
def renderLoop (rel : String) (rf : List (String × String)) :
    List SourceFile → Option (List (String × String))
  | [] => some rf
  | sf :: rest =>
    match outName sf.name with
    | none => none
    | some n =>
      renderLoop rel
        (mapInsert rf n
          ("# Rendered by echo-render plugin\n# Release: " ++ rel ++ "\n" ++ sf.data))
        rest

/-- Function `HelmPluginMain` of the echo-render plugin: empty input and a
malformed envelope return status 1 with a single error; otherwise the
release name defaults to `"unknown"` unless `release["name"]` is a
string, and the loop either traps or returns status 0 with the echoed
files. -/
def helmPluginMain : EchoInput → EchoResult
  | .empty => .ret 1 ⟨[], ["no input provided"]⟩
  | .malformed e => .ret 1 ⟨[], ["failed to parse input: " ++ e]⟩
  | .ok input =>
    let rel :=
      match objLookup input.release "name" with
      | some (.vstr s) => s
      | _ => "unknown"
    match renderLoop rel [] input.sourceFiles with
    | none => .trap
    | some rf => .ret 0 ⟨rf, []⟩

end Echo

/-- A concrete release context for closed instances. -/
def relEx : Gotpl.ReleaseInfo :=
  { name := "r", namespaceName := "default", revision := 1,
    isInstall := true, isUpgrade := false, service := "Helm" }

/-- A concrete chart context for closed instances. -/
def chartEx : Gotpl.ChartInfo :=
  { name := "c", version := "0.1.0", appVersion := "", description := "",
    type := "", isRoot := true }

/-- Concrete capabilities for closed instances. -/
def capEx : Gotpl.CapabilitiesInfo :=
  { kubeVersion := [], apiVersions := [], helmVersion := "v4.0.0" }

/-! ## Helper lemmas -/

theorem mapLookup_mapInsert_self (m : List (String × String)) (k v : String) :
    mapLookup (mapInsert m k v) k = some v := by
  induction m with
  | nil => simp [mapInsert, mapLookup]
  | cons p rest ih =>
    by_cases h : p.1 = k
    · simp [mapInsert, mapLookup, h]
    · simp [mapInsert, mapLookup, h, ih]

theorem mapLookup_mapInsert_ne (m : List (String × String)) (k2 v k : String)
    (h : k2 ≠ k) : mapLookup (mapInsert m k2 v) k = mapLookup m k := by
  induction m with
  | nil => simp [mapInsert, mapLookup, h]
  | cons p rest ih =>
    by_cases h2 : p.1 = k2
    · simp [mapInsert, mapLookup, h2, h, Ne.symm h]
    · by_cases h3 : p.1 = k <;>
        simp [mapInsert, mapLookup, h2, h3, ih, Ne.symm h]

theorem lookupTmpl_append (xs ys : List (String × Gotpl.Body)) (x : String) :
    Gotpl.lookupTmpl (xs ++ ys) x =
      (match Gotpl.lookupTmpl ys x with
       | some b => some b
       | none => Gotpl.lookupTmpl xs x) := by
  induction xs with
  | nil => cases hys : Gotpl.lookupTmpl ys x <;> simp [hys, Gotpl.lookupTmpl]
  | cons p rest ih =>
    simp only [List.cons_append, Gotpl.lookupTmpl, List.append_eq, ih]
    cases hys : Gotpl.lookupTmpl ys x <;> simp [hys]

theorem lookupTmpl_eq_none (ns : List (String × Gotpl.Body)) (x : String)
    (h : ∀ p ∈ ns, p.1 ≠ x) : Gotpl.lookupTmpl ns x = none := by
  induction ns with
  | nil => rfl
  | cons p rest ih =>
    have hp : p.1 ≠ x := h p (by simp)
    have hr : Gotpl.lookupTmpl rest x = none :=
      ih (fun q hq => h q (by simp [hq]))
    simp [Gotpl.lookupTmpl, hr, hp]

theorem pass1Ns_append (xs ys : List Gotpl.SourceFile) :
    Gotpl.pass1Ns (xs ++ ys) = Gotpl.pass1Ns xs ++ Gotpl.pass1Ns ys := by
  induction xs with
  | nil => simp [Gotpl.pass1Ns]
  | cons f rest ih => simp [Gotpl.pass1Ns, ih]

theorem pass1ErrList_append (xs ys : List Gotpl.SourceFile) :
    Gotpl.pass1ErrList (xs ++ ys) = Gotpl.pass1ErrList xs ++ Gotpl.pass1ErrList ys := by
  induction xs with
  | nil => simp [Gotpl.pass1ErrList]
  | cons f rest ih => simp [Gotpl.pass1ErrList, ih]

theorem pass2ErrList_append (ns : List (String × Gotpl.Body)) (xs ys : List Gotpl.SourceFile) :
    Gotpl.pass2ErrList ns (xs ++ ys) =
      Gotpl.pass2ErrList ns xs ++ Gotpl.pass2ErrList ns ys := by
  induction xs with
  | nil => simp [Gotpl.pass2ErrList]
  | cons f rest ih => simp [Gotpl.pass2ErrList, ih]

theorem pass2Rf_append (ns : List (String × Gotpl.Body)) (xs ys : List Gotpl.SourceFile)
    (rf : List (String × String)) :
    Gotpl.pass2Rf ns (xs ++ ys) rf = Gotpl.pass2Rf ns ys (Gotpl.pass2Rf ns xs rf) := by
  induction xs generalizing rf with
  | nil => simp [Gotpl.pass2Rf]
  | cons f rest ih => simp only [List.cons_append, Gotpl.pass2Rf, List.append_eq, ih]

theorem pass2Rf_lookup_skip (ns : List (String × Gotpl.Body))
    (files : List Gotpl.SourceFile) (rf : List (String × String)) (k : String)
    (h : ∀ f ∈ files, f.name = k → (Gotpl.pass2File ns f).1 = none) :
    mapLookup (Gotpl.pass2Rf ns files rf) k = mapLookup rf k := by
  induction files generalizing rf with
  | nil => rfl
  | cons f rest ih =>
    have hrest : ∀ g ∈ rest, g.name = k → (Gotpl.pass2File ns g).1 = none :=
      fun g hg => h g (by simp [hg])
    cases hins : (Gotpl.pass2File ns f).1 with
    | none => simp only [Gotpl.pass2Rf, hins]; exact ih _ hrest
    | some r =>
      have hne : f.name ≠ k := by
        intro hk
        exact absurd (h f (by simp) hk) (by simp [hins])
      simp only [Gotpl.pass2Rf, hins]
      rw [ih _ hrest, mapLookup_mapInsert_ne _ _ _ _ hne]

theorem renderLoop_total (rel : String) (files : List Echo.SourceFile)
    (rf : List (String × String))
    (h : ∀ sf ∈ files, 5 ≤ sf.name.utf8ByteSize) :
    ∃ rf2, Echo.renderLoop rel rf files = some rf2 := by
  induction files generalizing rf with
  | nil => exact ⟨rf, rfl⟩
  | cons sf rest ih =>
    have hsf : 5 ≤ sf.name.utf8ByteSize := h sf (by simp)
    have hrest : ∀ g ∈ rest, 5 ≤ g.name.utf8ByteSize :=
      fun g hg => h g (by simp [hg])
    simp only [Echo.renderLoop, Echo.outName, if_pos hsf]
    exact ih _ hrest

/-! ## Claim theorems -/

/-- C4: a malformed input envelope (a byte sequence on which
`json.Unmarshal` fails) yields status 1 and an output message with an
empty `renderedFiles` mapping, an errors sequence of exactly one
message, and no `modifiedSourceFiles` field — no partial rendering
output is produced. -/
theorem c4_malformed_envelope_fatal (e : String) :
    (Gotpl.helmPluginMain (Except.error e)).1 = 1 ∧
    (Gotpl.helmPluginMain (Except.error e)).2.renderedFiles = [] ∧
    (Gotpl.helmPluginMain (Except.error e)).2.errors =
      ["failed to parse input: " ++ e] ∧
    (Gotpl.helmPluginMain (Except.error e)).2.modifiedSourceFiles = none ∧
    Gotpl.emitsModifiedSourceFiles (Gotpl.helmPluginMain (Except.error e)).2 = false :=
  ⟨rfl, rfl, rfl, rfl, rfl⟩

/-- C10: the gotemplate-render plugin never requests a source-tree
change — for every invocation (malformed or well-formed input), the
output message's `modifiedSourceFiles` is the nil slice and the
serialized field is omitted, so only `renderedFiles` and `errors` are
ever populated. -/
theorem c10_never_modifies_source_tree
    (d : Except String Gotpl.InputMessageRenderV1) :
    (Gotpl.helmPluginMain d).2.modifiedSourceFiles = none ∧
    Gotpl.emitsModifiedSourceFiles (Gotpl.helmPluginMain d).2 = false := by
  cases d <;> exact ⟨rfl, rfl⟩

/-- C6, counterexample: the claim asserts `default(0, "fallback")`
evaluates to `0`, but the code's argument order is `(def, val)`:
`"fallback"` is a non-empty value, so the call returns `"fallback"`,
not `0`. -/
theorem c6_default_zero_cex :
    Gotpl.defaultFn (Gotpl.Value.vint 0) (Gotpl.Value.vstr "fallback") =
      Gotpl.Value.vstr "fallback" ∧
    Gotpl.Value.vstr "fallback" ≠ Gotpl.Value.vint 0 := by
  refine ⟨by simp [Gotpl.defaultFn], ?_⟩
  intro h
  exact Gotpl.Value.noConfusion h

/-- C6, amended: `default(def, val)` returns `def` when `val` is nil or
the empty string and returns `val` otherwise; in particular
`default("", "fallback")` is `"fallback"` and `default("fallback", 0)`
is `0` — numeric zero is not treated as empty. -/
theorem c6_default_contract :
    Gotpl.defaultFn (Gotpl.Value.vstr "") (Gotpl.Value.vstr "fallback") =
      Gotpl.Value.vstr "fallback" ∧
    Gotpl.defaultFn (Gotpl.Value.vstr "fallback") (Gotpl.Value.vint 0) =
      Gotpl.Value.vint 0 ∧
    (∀ d : Gotpl.Value, Gotpl.defaultFn d Gotpl.Value.vnull = d) ∧
    (∀ d : Gotpl.Value, Gotpl.defaultFn d (Gotpl.Value.vstr "") = d) ∧
    (∀ d v : Gotpl.Value, v ≠ Gotpl.Value.vnull → v ≠ Gotpl.Value.vstr "" →
      Gotpl.defaultFn d v = v) := by
  refine ⟨by simp [Gotpl.defaultFn], by simp [Gotpl.defaultFn],
    fun d => rfl, fun d => by simp [Gotpl.defaultFn], fun d v h1 h2 => ?_⟩
  cases v with
  | vnull => exact absurd rfl h1
  | vstr s =>
    have hs : s ≠ "" := fun hs0 => h2 (by rw [hs0])
    simp [Gotpl.defaultFn, hs]
  | vbool b => rfl
  | vint n => rfl
  | vlist l => rfl
  | vdict d2 => rfl

theorem c6_default_contract_witness :
    Gotpl.defaultFn (Gotpl.Value.vstr "fb") (Gotpl.Value.vint 7) =
      Gotpl.Value.vint 7 :=
  c6_default_contract.2.2.2.2 (Gotpl.Value.vstr "fb") (Gotpl.Value.vint 7)
    (fun h => Gotpl.Value.noConfusion h) (fun h => Gotpl.Value.noConfusion h)

/-- C7, counterexample: a concrete call of each of `include` and `tpl`
returns an error instead of rendered text — they are stubs, so the
claim that they are working capabilities fails. -/
theorem c7_include_tpl_cex :
    Gotpl.includeFn "X" Gotpl.Value.vnull =
      Except.error "include not fully implemented in plugin" ∧
    Gotpl.tplFn "x" Gotpl.Value.vnull =
      Except.error "tpl not fully implemented in plugin" :=
  ⟨rfl, rfl⟩

/-- C7, amended: `include` and `tpl` are placeholders — every call
fails with a fixed "not fully implemented in plugin" error and never
returns rendered text. -/
theorem c7_include_tpl_are_stubs :
    (∀ (name : String) (data : Gotpl.Value),
      Gotpl.includeFn name data =
        Except.error "include not fully implemented in plugin") ∧
    (∀ (raw : String) (data : Gotpl.Value),
      Gotpl.tplFn raw data =
        Except.error "tpl not fully implemented in plugin") :=
  ⟨fun _ _ => rfl, fun _ _ => rfl⟩

/-- C8, counterexample: at the concrete mapping with one key `"a"` and
value `1`, `toYaml` produces the indented JSON text (identical to
`toPrettyJson`), not the YAML serialization `"a: 1\n"`. -/
theorem c8_toYaml_json_cex :
    Gotpl.toYamlFn (Gotpl.Value.vdict [("a", Gotpl.Value.vint 1)]) =
      "\x7b\n  \"a\": 1\n\x7d" ∧
    Gotpl.toYamlFn (Gotpl.Value.vdict [("a", Gotpl.Value.vint 1)]) =
      Gotpl.toPrettyJsonFn (Gotpl.Value.vdict [("a", Gotpl.Value.vint 1)]) ∧
    Gotpl.toYamlFn (Gotpl.Value.vdict [("a", Gotpl.Value.vint 1)]) ≠ "a: 1\n" := by
  have h : Gotpl.toYamlFn (Gotpl.Value.vdict [("a", Gotpl.Value.vint 1)]) =
      "\x7b\n  \"a\": 1\n\x7d" := by
    simp [Gotpl.toYamlFn, Gotpl.jsonIndent, Gotpl.jsonIndentDict, Gotpl.sortPairs,
      Gotpl.insertPair, Gotpl.indentStr, Gotpl.jsonEscape, Gotpl.jsonEscapeChar]
    decide
  refine ⟨h, h, by rw [h]; decide⟩

/-- C8, amended: `toYaml` returns the two-space-indented JSON
serialization of its argument — the same text as `toPrettyJson` — not a
YAML serialization. -/
theorem c8_toYaml_equals_prettyJson (v : Gotpl.Value) :
    Gotpl.toYamlFn v = Gotpl.toPrettyJsonFn v := rfl

/-- C5: for `sourceFiles = [A, B, C]` with the third file named with a
`.test` suffix, the sourcefiles-modifier plugin returns
`ModifiedSourceFiles = [B2, C2, D]` in that order, where `B2` is `B`
with rewritten content and unchanged name, `C2` is `C` with unchanged
bytes and the `.test` extension renamed to `.renamed`, and `D` is the
appended synthetic file — a sequence of length 3 — and the invocation
returns status 0. -/
theorem c5_sequential_handoff
    (rel vals ch sub cap : List (String × Gotpl.Value))
    (fls : List SfMod.SourceFile) (A B C : SfMod.SourceFile)
    (hC : strEndsWith C.name ".test" = true) :
    (SfMod.helmPluginMain
        (Except.ok ⟨rel, vals, ch, sub, fls, cap, [A, B, C]⟩)).2.modifiedSourceFiles =
      some [⟨B.name, "[MODIFIED BY PLUGIN 1]\n" ++ B.data⟩,
            ⟨strDropRight C.name 5 ++ ".renamed", C.data⟩,
            ⟨"templates/file4.test", SfMod.newFileContent⟩] ∧
    (SfMod.helmPluginMain
        (Except.ok ⟨rel, vals, ch, sub, fls, cap, [A, B, C]⟩)).1 = 0 := by
  have h5 : (".test" : String).data.length = 5 := rfl
  constructor
  · simp [SfMod.helmPluginMain, SfMod.processFiles, goTrimSuffix, hC, h5]
  · rfl

theorem c5_sequential_handoff_witness :
    (SfMod.helmPluginMain
        (Except.ok ⟨[], [], [], [], [], [],
          [⟨"templates/file1.test", "one"⟩, ⟨"templates/file2.test", "two"⟩,
           ⟨"templates/file3.test", "three"⟩]⟩)).2.modifiedSourceFiles =
      some [⟨"templates/file2.test", "[MODIFIED BY PLUGIN 1]\ntwo"⟩,
            ⟨"templates/file3.renamed", "three"⟩,
            ⟨"templates/file4.test", SfMod.newFileContent⟩] := by
  have := (c5_sequential_handoff [] [] [] [] [] []
    ⟨"templates/file1.test", "one"⟩ ⟨"templates/file2.test", "two"⟩
    ⟨"templates/file3.test", "three"⟩ (by decide)).1
  simpa using this

/-- C9: the echo-render plugin's output-name computation drops the last
5 bytes of the source file name unconditionally; a well-formed input
whose source file name is shorter than 5 bytes makes the slice bound
negative and the invocation traps instead of returning an output
message, while inputs whose file names all have at least 5 bytes never
trap. -/
theorem c9_short_name_slice_traps :
    Echo.helmPluginMain (Echo.EchoInput.ok ⟨[], [], [], [⟨"a.e", "x"⟩]⟩) =
      Echo.EchoResult.trap ∧
    ∀ inp : Echo.InputMessage,
      (∀ sf ∈ inp.sourceFiles, 5 ≤ sf.name.utf8ByteSize) →
      Echo.helmPluginMain (Echo.EchoInput.ok inp) ≠ Echo.EchoResult.trap := by
  constructor
  · rfl
  · intro inp h
    obtain ⟨rf2, h2⟩ := renderLoop_total
      (match Echo.objLookup inp.release "name" with
       | some (.vstr s) => s
       | _ => "unknown") inp.sourceFiles [] h
    simp only [Echo.helmPluginMain, h2]
    intro hcontra
    exact Echo.EchoResult.noConfusion hcontra

theorem c9_short_name_slice_traps_witness :
    Echo.helmPluginMain (Echo.EchoInput.ok ⟨[], [], [], [⟨"ab.echo", "y"⟩]⟩) ≠
      Echo.EchoResult.trap :=
  c9_short_name_slice_traps.2 ⟨[], [], [], [⟨"ab.echo", "y"⟩]⟩ (by decide)

theorem pass1Regs_not_helper (f : Gotpl.SourceFile)
    (h : strStartsWith (pathBase f.name) "_" = false) :
    Gotpl.pass1Regs f = [] := by
  simp [Gotpl.pass1Regs, h]

theorem pass1Errs_not_helper (f : Gotpl.SourceFile)
    (h : strStartsWith (pathBase f.name) "_" = false) :
    Gotpl.pass1Errs f = [] := by
  simp [Gotpl.pass1Errs, h]

theorem pass2File_helper (ns : List (String × Gotpl.Body)) (f : Gotpl.SourceFile)
    (h : strStartsWith (pathBase f.name) "_" = true) :
    Gotpl.pass2File ns f = (none, []) := by
  simp [Gotpl.pass2File, h]

theorem pass2File_none_or_noerr (ns : List (String × Gotpl.Body))
    (f : Gotpl.SourceFile) :
    (Gotpl.pass2File ns f).1 = none ∨ (Gotpl.pass2File ns f).2 = [] := by
  unfold Gotpl.pass2File
  split
  · exact Or.inl rfl
  · split
    · split
      · exact Or.inl rfl
      · split
        · exact Or.inl rfl
        · split
          · exact Or.inl rfl
          · exact Or.inr rfl
    · exact Or.inl rfl

/-- C3: with a well-formed envelope, a parse or execution failure of
one primary file `f` (a file whose pass-2 outcome is the single error
`m`) leaves status 0, leaves `renderedFiles` exactly as if `f` were
absent from the sequence, and produces the error sequence of the run
without `f` with the one message `m` inserted at `f`'s position. -/
theorem c3_per_file_isolation
    (rel : Gotpl.ReleaseInfo) (vals : List (String × Gotpl.Value))
    (ch : Gotpl.ChartInfo) (sub : List (String × Gotpl.Value))
    (fls : List (String × String)) (cap : Gotpl.CapabilitiesInfo)
    (pre post : List Gotpl.SourceFile) (f : Gotpl.SourceFile) (m : String)
    (hfail : (Gotpl.pass2File (Gotpl.pass1Ns (pre ++ f :: post)) f).2 = [m]) :
    (Gotpl.helmPluginMain
        (Except.ok ⟨rel, vals, ch, sub, fls, cap, pre ++ f :: post⟩)).1 = 0 ∧
    (Gotpl.helmPluginMain
        (Except.ok ⟨rel, vals, ch, sub, fls, cap, pre ++ f :: post⟩)).2.renderedFiles =
      (Gotpl.helmPluginMain
        (Except.ok ⟨rel, vals, ch, sub, fls, cap, pre ++ post⟩)).2.renderedFiles ∧
    (Gotpl.helmPluginMain
        (Except.ok ⟨rel, vals, ch, sub, fls, cap, pre ++ f :: post⟩)).2.errors =
      Gotpl.pass1ErrList (pre ++ post) ++
        (Gotpl.pass2ErrList (Gotpl.pass1Ns (pre ++ post)) pre ++
          m :: Gotpl.pass2ErrList (Gotpl.pass1Ns (pre ++ post)) post) ∧
    (Gotpl.helmPluginMain
        (Except.ok ⟨rel, vals, ch, sub, fls, cap, pre ++ post⟩)).2.errors =
      Gotpl.pass1ErrList (pre ++ post) ++
        (Gotpl.pass2ErrList (Gotpl.pass1Ns (pre ++ post)) pre ++
          Gotpl.pass2ErrList (Gotpl.pass1Ns (pre ++ post)) post) := by
  have hnh : strStartsWith (pathBase f.name) "_" = false := by
    by_cases h : strStartsWith (pathBase f.name) "_" = true
    · rw [pass2File_helper _ f h] at hfail
      exact absurd hfail.symm (List.cons_ne_nil m [])
    · exact eq_false_of_ne_true h
  have hns : Gotpl.pass1Ns (pre ++ f :: post) = Gotpl.pass1Ns (pre ++ post) := by
    rw [pass1Ns_append, pass1Ns_append]
    show Gotpl.pass1Ns pre ++ (Gotpl.pass1Regs f ++ Gotpl.pass1Ns post) = _
    rw [pass1Regs_not_helper f hnh, List.nil_append]
  have herr1 : Gotpl.pass1ErrList (pre ++ f :: post) = Gotpl.pass1ErrList (pre ++ post) := by
    rw [pass1ErrList_append, pass1ErrList_append]
    show Gotpl.pass1ErrList pre ++ (Gotpl.pass1Errs f ++ Gotpl.pass1ErrList post) = _
    rw [pass1Errs_not_helper f hnh, List.nil_append]
  rw [hns] at hfail
  have hfst : (Gotpl.pass2File (Gotpl.pass1Ns (pre ++ post)) f).1 = none := by
    rcases pass2File_none_or_noerr (Gotpl.pass1Ns (pre ++ post)) f with h | h
    · exact h
    · rw [h] at hfail
      exact List.noConfusion hfail
  refine ⟨rfl, ?_, ?_, ?_⟩
  · show Gotpl.pass2Rf (Gotpl.pass1Ns (pre ++ f :: post)) (pre ++ f :: post) [] =
      Gotpl.pass2Rf (Gotpl.pass1Ns (pre ++ post)) (pre ++ post) []
    rw [hns, pass2Rf_append, pass2Rf_append]
    simp only [Gotpl.pass2Rf, hfst]
  · show Gotpl.pass1ErrList (pre ++ f :: post) ++
        Gotpl.pass2ErrList (Gotpl.pass1Ns (pre ++ f :: post)) (pre ++ f :: post) = _
    rw [hns, herr1, pass2ErrList_append]
    simp only [Gotpl.pass2ErrList]
    rw [hfail]
    simp
  · show Gotpl.pass1ErrList (pre ++ post) ++
        Gotpl.pass2ErrList (Gotpl.pass1Ns (pre ++ post)) (pre ++ post) = _
    rw [pass2ErrList_append]

theorem c3_per_file_isolation_witness :
    (Gotpl.helmPluginMain
        (Except.ok ⟨relEx, [], chartEx, [], [], capEx,
          [⟨"bad.yaml", Gotpl.TmplSrc.bad "unexpected EOF"⟩,
           ⟨"good.yaml", Gotpl.TmplSrc.ok ⟨[], Gotpl.Body.lit "kind: X"⟩⟩]⟩)).1 = 0 ∧
    (Gotpl.helmPluginMain
        (Except.ok ⟨relEx, [], chartEx, [], [], capEx,
          [⟨"bad.yaml", Gotpl.TmplSrc.bad "unexpected EOF"⟩,
           ⟨"good.yaml", Gotpl.TmplSrc.ok ⟨[], Gotpl.Body.lit "kind: X"⟩⟩]⟩)).2.errors =
      ["parse error in bad.yaml: unexpected EOF"] := by
  have h := c3_per_file_isolation relEx [] chartEx [] [] capEx []
    [⟨"good.yaml", Gotpl.TmplSrc.ok ⟨[], Gotpl.Body.lit "kind: X"⟩⟩]
    ⟨"bad.yaml", Gotpl.TmplSrc.bad "unexpected EOF"⟩
    "parse error in bad.yaml: unexpected EOF" (by decide)
  simp only [List.nil_append] at h
  refine ⟨h.1, ?_⟩
  rw [h.2.2.1]
  decide

theorem pass2File_fst_none_of_ws (ns : List (String × Gotpl.Body))
    (f : Gotpl.SourceFile) (t : Gotpl.TmplFile) (r : String)
    (hdata : f.data = Gotpl.TmplSrc.ok t)
    (hexec : Gotpl.execBody (ns ++ (f.name, t.body) :: t.defines)
        Gotpl.maxExecDepth t.body = Except.ok r)
    (hws : goTrimSpace r = "") :
    (Gotpl.pass2File ns f).1 = none := by
  by_cases h1 : strStartsWith (pathBase f.name) "_" = true
  · simp [Gotpl.pass2File, h1]
  · have h1' := eq_false_of_ne_true h1
    by_cases h2 : Gotpl.hasTemplateExt f.name = true
    · simp [Gotpl.pass2File, h1', h2, hdata, hexec, hws]
    · simp [Gotpl.pass2File, h1', eq_false_of_ne_true h2]

theorem pass2Rf_all_none (ns : List (String × Gotpl.Body))
    (files : List Gotpl.SourceFile) (rf : List (String × String))
    (h : ∀ f ∈ files, (Gotpl.pass2File ns f).1 = none) :
    Gotpl.pass2Rf ns files rf = rf := by
  induction files generalizing rf with
  | nil => rfl
  | cons f rest ih =>
    have hf := h f (by simp)
    simp only [Gotpl.pass2Rf, hf]
    exact ih _ (fun g hg => h g (by simp [hg]))

/-- C2, counterexample: the claim quantifies over every input, but
source-file names need not be unique (the data model leaves uniqueness
to the implementer).  With two primary files both named `"a.yaml"`, the
first rendering to the all-whitespace text `" "` and the second to
`"x"`, the first file is a primary file whose executed output is
entirely whitespace after trimming, yet `"a.yaml"` does appear as a key
of `renderedFiles` (bound to the second file's output). -/
theorem c2_whitespace_key_cex :
    strStartsWith (pathBase "a.yaml") "_" = false ∧
    Gotpl.hasTemplateExt "a.yaml" = true ∧
    Gotpl.execBody
        (Gotpl.pass1Ns
            [⟨"a.yaml", Gotpl.TmplSrc.ok ⟨[], Gotpl.Body.lit " "⟩⟩,
             ⟨"a.yaml", Gotpl.TmplSrc.ok ⟨[], Gotpl.Body.lit "x"⟩⟩] ++
          [("a.yaml", Gotpl.Body.lit " ")])
        Gotpl.maxExecDepth (Gotpl.Body.lit " ") = Except.ok " " ∧
    goTrimSpace " " = "" ∧
    mapLookup
        (Gotpl.helmPluginMain
          (Except.ok ⟨relEx, [], chartEx, [], [], capEx,
            [⟨"a.yaml", Gotpl.TmplSrc.ok ⟨[], Gotpl.Body.lit " "⟩⟩,
             ⟨"a.yaml", Gotpl.TmplSrc.ok ⟨[], Gotpl.Body.lit "x"⟩⟩]⟩)).2.renderedFiles
        "a.yaml" = some "x" :=
  ⟨rfl, rfl, rfl, rfl, rfl⟩

/-- C2, amended: provided source-file names are unique within the input
sequence (an implementer responsibility in the data model), a file
whose executed template output is entirely whitespace after trimming
never appears as a key of `renderedFiles`; and whenever every
successfully executed file renders to all-whitespace output, the
returned `renderedFiles` mapping is empty. -/
theorem c2_whitespace_never_emitted (input : Gotpl.InputMessageRenderV1) :
    (((input.sourceFiles.map Gotpl.SourceFile.name).Nodup) →
      ∀ f ∈ input.sourceFiles, ∀ (t : Gotpl.TmplFile) (r : String),
        f.data = Gotpl.TmplSrc.ok t →
        Gotpl.execBody
            (Gotpl.pass1Ns input.sourceFiles ++ (f.name, t.body) :: t.defines)
            Gotpl.maxExecDepth t.body = Except.ok r →
        goTrimSpace r = "" →
        mapLookup (Gotpl.helmPluginMain (Except.ok input)).2.renderedFiles f.name =
          none) ∧
    ((∀ f ∈ input.sourceFiles, ∀ (t : Gotpl.TmplFile) (r : String),
        f.data = Gotpl.TmplSrc.ok t →
        Gotpl.execBody
            (Gotpl.pass1Ns input.sourceFiles ++ (f.name, t.body) :: t.defines)
            Gotpl.maxExecDepth t.body = Except.ok r →
        goTrimSpace r = "") →
      (Gotpl.helmPluginMain (Except.ok input)).2.renderedFiles = []) := by
  constructor
  · intro hnd f hf t r hdata hexec hws
    show mapLookup
        (Gotpl.pass2Rf (Gotpl.pass1Ns input.sourceFiles) input.sourceFiles [])
        f.name = none
    rw [pass2Rf_lookup_skip]
    · rfl
    · intro g hg hname
      have hgf : g = f := List.inj_on_of_nodup_map hnd hg hf hname
      rw [hgf]
      exact pass2File_fst_none_of_ws _ f t r hdata hexec hws
  · intro hall
    show Gotpl.pass2Rf (Gotpl.pass1Ns input.sourceFiles) input.sourceFiles [] = []
    apply pass2Rf_all_none
    intro f hf
    by_cases h1 : strStartsWith (pathBase f.name) "_" = true
    · simp [Gotpl.pass2File, h1]
    · have h1' := eq_false_of_ne_true h1
      by_cases h2 : Gotpl.hasTemplateExt f.name = true
      · cases hdata : f.data with
        | bad e => simp [Gotpl.pass2File, h1', h2, hdata]
        | ok t =>
          cases hexec : Gotpl.execBody
              (Gotpl.pass1Ns input.sourceFiles ++ (f.name, t.body) :: t.defines)
              Gotpl.maxExecDepth t.body with
          | error e => simp [Gotpl.pass2File, h1', h2, hdata, hexec]
          | ok r =>
            have hws := hall f hf t r hdata hexec
            simp [Gotpl.pass2File, h1', h2, hdata, hexec, hws]
      · simp [Gotpl.pass2File, h1', eq_false_of_ne_true h2]

theorem c2_whitespace_never_emitted_witness :
    mapLookup
        (Gotpl.helmPluginMain
          (Except.ok ⟨relEx, [], chartEx, [], [], capEx,
            [⟨"w.yaml", Gotpl.TmplSrc.ok ⟨[], Gotpl.Body.lit " \n"⟩⟩]⟩)).2.renderedFiles
        "w.yaml" = none :=
  (c2_whitespace_never_emitted _).1 (by decide)
    ⟨"w.yaml", Gotpl.TmplSrc.ok ⟨[], Gotpl.Body.lit " \n"⟩⟩ (by simp)
    ⟨[], Gotpl.Body.lit " \n"⟩ " \n" rfl rfl rfl

theorem execBody_succ_templ (ns : List (String × Gotpl.Body)) (fuel : Nat) (x : String) :
    Gotpl.execBody ns (fuel + 1) (Gotpl.Body.templ x) =
      (match Gotpl.lookupTmpl ns x with
       | none => Except.error ("no such template " ++ x)
       | some b => Gotpl.execBody ns fuel b) := rfl

theorem execBody_succ_lit (ns : List (String × Gotpl.Body)) (fuel : Nat) (s : String) :
    Gotpl.execBody ns (fuel + 1) (Gotpl.Body.lit s) = Except.ok s := rfl

theorem lookupTmpl_pass1Ns_none (files : List Gotpl.SourceFile) (x : String)
    (h : ∀ g ∈ files, ∀ q ∈ Gotpl.pass1Regs g, q.1 ≠ x) :
    Gotpl.lookupTmpl (Gotpl.pass1Ns files) x = none := by
  induction files with
  | nil => rfl
  | cons f rest ih =>
    have h1 : Gotpl.lookupTmpl (Gotpl.pass1Regs f) x = none :=
      lookupTmpl_eq_none _ _ (h f (by simp))
    have h2 : Gotpl.lookupTmpl (Gotpl.pass1Ns rest) x = none :=
      ih (fun g hg => h g (by simp [hg]))
    simp only [Gotpl.pass1Ns, lookupTmpl_append, h1, h2]

/-- C1: last-wins override of fragment definitions.  In a source
sequence `pre ++ [P1] ++ mid ++ [P2] ++ post ++ [M]` where partial
files `P1` and `P2` (base names starting with `"_"`) both define
fragment `X` — with bodies `b1` and `b2` respectively — no file after
`P2` re-registers `X`, and `M` is a primary file that includes `X`, the
rendered output recorded for `M` is `b2`, the body of the later
partial. -/
theorem c1_fragment_override_last_wins
    (rel : Gotpl.ReleaseInfo) (vals : List (String × Gotpl.Value))
    (ch : Gotpl.ChartInfo) (sub : List (String × Gotpl.Value))
    (fls : List (String × String)) (cap : Gotpl.CapabilitiesInfo)
    (pre mid post : List Gotpl.SourceFile)
    (p1 p2 m X b1 b2 : String)
    (hp1 : strStartsWith (pathBase p1) "_" = true)
    (hp2 : strStartsWith (pathBase p2) "_" = true)
    (hm : strStartsWith (pathBase m) "_" = false)
    (hmext : Gotpl.hasTemplateExt m = true)
    (hXm : m ≠ X)
    (hb : b1 ≠ b2)
    (hws : goTrimSpace b2 ≠ "")
    (hNoX : ∀ g ∈ post, ∀ q ∈ Gotpl.pass1Regs g, q.1 ≠ X) :
    mapLookup
      (Gotpl.helmPluginMain (Except.ok ⟨rel, vals, ch, sub, fls, cap,
        pre ++
          ⟨p1, Gotpl.TmplSrc.ok ⟨[(X, Gotpl.Body.lit b1)], Gotpl.Body.lit ""⟩⟩ ::
            mid ++
          ⟨p2, Gotpl.TmplSrc.ok ⟨[(X, Gotpl.Body.lit b2)], Gotpl.Body.lit ""⟩⟩ ::
            post ++
          [⟨m, Gotpl.TmplSrc.ok ⟨[], Gotpl.Body.templ X⟩⟩]⟩)).2.renderedFiles m =
      some b2 := by
  set P1 : Gotpl.SourceFile :=
    ⟨p1, Gotpl.TmplSrc.ok ⟨[(X, Gotpl.Body.lit b1)], Gotpl.Body.lit ""⟩⟩ with hP1
  set P2 : Gotpl.SourceFile :=
    ⟨p2, Gotpl.TmplSrc.ok ⟨[(X, Gotpl.Body.lit b2)], Gotpl.Body.lit ""⟩⟩ with hP2
  set M : Gotpl.SourceFile := ⟨m, Gotpl.TmplSrc.ok ⟨[], Gotpl.Body.templ X⟩⟩ with hM
  set files : List Gotpl.SourceFile :=
    pre ++ P1 :: mid ++ P2 :: post ++ [M] with hfiles
  set ns : List (String × Gotpl.Body) := Gotpl.pass1Ns files with hns
  -- the fragment lookup in M's execution namespace resolves to b2
  have hMreg : Gotpl.lookupTmpl [(m, Gotpl.Body.templ X)] X = none := by
    simp [Gotpl.lookupTmpl, hXm]
  have hpost : Gotpl.lookupTmpl (Gotpl.pass1Ns post) X = none :=
    lookupTmpl_pass1Ns_none post X hNoX
  have hMns : Gotpl.pass1Regs M = [] := pass1Regs_not_helper M hm
  have hR2 : Gotpl.lookupTmpl (Gotpl.pass1Regs P2) X = some (Gotpl.Body.lit b2) := by
    simp [Gotpl.pass1Regs, hP2, hp2, Gotpl.lookupTmpl]
  have hlook : Gotpl.lookupTmpl (ns ++ (m, Gotpl.Body.templ X) :: []) X =
      some (Gotpl.Body.lit b2) := by
    rw [hns, hfiles]
    simp only [Gotpl.pass1Ns, pass1Ns_append, lookupTmpl_append, hMreg, hMns,
      hpost, hR2, List.append_nil, List.nil_append]
  -- hence M's body executes to b2
  have hexecM : Gotpl.execBody (ns ++ (m, Gotpl.Body.templ X) :: [])
      Gotpl.maxExecDepth (Gotpl.Body.templ X) = Except.ok b2 := by
    rw [show Gotpl.maxExecDepth = 99999 + 1 from rfl, execBody_succ_templ, hlook]
    exact execBody_succ_lit _ 99998 b2
  have hp2f : Gotpl.pass2File ns M = (some b2, []) := by
    simp [Gotpl.pass2File, hM, hm, hmext, hexecM, hws]
  -- the final map records b2 under M's name
  show mapLookup (Gotpl.pass2Rf ns files []) m = some b2
  rw [hfiles]
  rw [pass2Rf_append, pass2Rf_append, pass2Rf_append]
  simp only [Gotpl.pass2Rf, hp2f]
  exact mapLookup_mapInsert_self _ m b2

theorem c1_fragment_override_last_wins_witness :
    mapLookup
      (Gotpl.helmPluginMain (Except.ok ⟨relEx, [], chartEx, [], [], capEx,
        [⟨"_a.tpl", Gotpl.TmplSrc.ok ⟨[("X", Gotpl.Body.lit "one")], Gotpl.Body.lit ""⟩⟩,
         ⟨"_b.tpl", Gotpl.TmplSrc.ok ⟨[("X", Gotpl.Body.lit "two")], Gotpl.Body.lit ""⟩⟩,
         ⟨"cm.yaml", Gotpl.TmplSrc.ok ⟨[], Gotpl.Body.templ "X"⟩⟩]⟩)).2.renderedFiles
      "cm.yaml" = some "two" := by
  have h := c1_fragment_override_last_wins relEx [] chartEx [] [] capEx
    [] [] [] "_a.tpl" "_b.tpl" "cm.yaml" "X" "one" "two"
    (by decide) (by decide) (by decide) (by decide) (by decide) (by decide)
    (by decide) (by simp)
  simpa using h
